import Mathlib

/-!
Shallow embedding of the catan-game-logic crate
(src/catan-game-logic/src/{resources,bank,trade,development_cards,player}.rs).

Modelling conventions:
* Rust `usize` is modelled as `Nat`.  Subtraction is modelled checked
  (`usizeSub` returns `none` where Rust `a - b` on `usize` would underflow
  and panic); addition of resource counts never overflows in any scenario
  the claims quantify over, so it is modelled as `Nat` addition.
* The cast `n as i32` on a `usize` is modelled by `usizeToI32`
  (truncation to 32 bits, then two's-complement reinterpretation), and
  `i32` subtraction by `i32Sub`, which returns `none` where the Rust
  debug-mode subtraction would overflow and panic.
* A Rust `panic!` / arithmetic panic is a distinguished outcome
  (`none`, or an explicit `panicked` constructor), never a value.
* `thread_rng` is modelled as an explicit stream `rng : Nat → DevelopmentCard`
  giving the successive outputs of `DevelopmentCard::random`.
-/

/-- Checked `usize` subtraction: `none` models the underflow panic of
Rust `a - b` on `usize`. -/
def usizeSub (a b : Nat) : Option Nat :=
  if b ≤ a then some (a - b) else none

/-- The Rust cast `n as i32` applied to a `usize`: truncate to 32 bits and
reinterpret in two's complement. -/
def usizeToI32 (n : Nat) : Int :=
  if n % 2 ^ 32 < 2 ^ 31 then ((n % 2 ^ 32 : Nat) : Int)
  else ((n % 2 ^ 32 : Nat) : Int) - 2 ^ 32

/-- Checked `i32` subtraction: `none` models the debug-mode overflow panic. -/
def i32Sub (a b : Int) : Option Int :=
  if -(2 ^ 31) ≤ a - b ∧ a - b < 2 ^ 31 then some (a - b) else none

/-- `ResourceKind` from resources.rs. -/
inductive ResourceKind
  | ore
  | grain
  | wool
  | brick
  | lumber
deriving DecidableEq

/-- `Resources` from resources.rs, fields in the source's declaration order
(`ore`, `grain`, `lumber`, `brick`, `wool`), all `usize`. -/
structure Resources where
  ore : Nat
  grain : Nat
  lumber : Nat
  brick : Nat
  wool : Nat
deriving DecidableEq

/-- `Resources::new` — zero-initialised bundle. -/
def Resources.new : Resources :=
  { ore := 0, grain := 0, wool := 0, brick := 0, lumber := 0 }

/-- `Resources::new_explicit(ore, grain, wool, brick, lumber)` —
parameter order as in the source. -/
def Resources.newExplicit (ore grain wool brick lumber : Nat) : Resources :=
  { ore := ore, grain := grain, wool := wool, brick := brick, lumber := lumber }

/-- `Resources::new_with_amount` — uniform bundle. -/
def Resources.newWithAmount (amount : Nat) : Resources :=
  { ore := amount, grain := amount, wool := amount, brick := amount, lumber := amount }

/-- `impl Index<ResourceKind> for Resources` — per-kind read. -/
def Resources.get (r : Resources) : ResourceKind → Nat
  | .ore => r.ore
  | .grain => r.grain
  | .wool => r.wool
  | .brick => r.brick
  | .lumber => r.lumber

/-- `impl IndexMut<ResourceKind> for Resources` — per-kind write. -/
def Resources.set (r : Resources) (k : ResourceKind) (v : Nat) : Resources :=
  match k with
  | .ore => { r with ore := v }
  | .grain => { r with grain := v }
  | .wool => { r with wool := v }
  | .brick => { r with brick := v }
  | .lumber => { r with lumber := v }

/-- `impl Add<Resources> for Resources` from resources.rs, field by field.
The source computes the `lumber` field as `self.ore + rhs.ore`, and the
embedding reproduces that. -/
def Resources.add (a b : Resources) : Resources :=
  { ore := a.ore + b.ore
    grain := a.grain + b.grain
    wool := a.wool + b.wool
    brick := a.brick + b.brick
    lumber := a.ore + b.ore }

/-- `impl AddAssign<Resources> for Resources` from resources.rs —
element-wise on every field (unlike `Add`). -/
def Resources.addAssign (a b : Resources) : Resources :=
  { ore := a.ore + b.ore
    grain := a.grain + b.grain
    wool := a.wool + b.wool
    brick := a.brick + b.brick
    lumber := a.lumber + b.lumber }

/-- `impl Sub<Resources> for Resources` from resources.rs with checked
`usize` subtraction per field.  The source computes the `lumber` field as
`self.ore - rhs.ore`, and the embedding reproduces that. -/
def Resources.sub (a b : Resources) : Option Resources := do
  let ore ← usizeSub a.ore b.ore
  let grain ← usizeSub a.grain b.grain
  let wool ← usizeSub a.wool b.wool
  let brick ← usizeSub a.brick b.brick
  let lumber ← usizeSub a.ore b.ore
  pure { ore := ore, grain := grain, wool := wool, brick := brick, lumber := lumber }

/-- `impl SubAssign<Resources> for Resources` from resources.rs —
element-wise checked subtraction on every field. -/
def Resources.subAssign (a b : Resources) : Option Resources := do
  let ore ← usizeSub a.ore b.ore
  let grain ← usizeSub a.grain b.grain
  let wool ← usizeSub a.wool b.wool
  let brick ← usizeSub a.brick b.brick
  let lumber ← usizeSub a.lumber b.lumber
  pure { ore := ore, grain := grain, wool := wool, brick := brick, lumber := lumber }

/-- Lowercasing as used by `ResourceKind::from` (ASCII case folding per
character; the five keywords and all inputs of interest are ASCII). -/
def asciiLower (s : String) : String :=
  String.mk (s.data.map Char.toLower)

/-- `impl<S> From<S> for ResourceKind` from resources.rs: lowercase the
input and match it against the five kind names.  The wildcard arm of the
source is `panic!("Unrecognized resource")`; `none` models that panic. -/
def ResourceKind.fromString (s : String) : Option ResourceKind :=
  let v := asciiLower s
  if v = "ore" then some ResourceKind.ore
  else if v = "grain" then some ResourceKind.grain
  else if v = "wool" then some ResourceKind.wool
  else if v = "brick" then some ResourceKind.brick
  else if v = "lumber" then some ResourceKind.lumber
  else none

/-- `DevelopmentCard` from development_cards.rs. -/
inductive DevelopmentCard
  | yearOfPlenty
  | monopoly
  | knight
  | roadBuilding
  | hiddenVictoryPoint
deriving DecidableEq

/-- The bank's development-card stock: the `HashMap<DevelopmentCard, usize>`
of bank.rs, which always carries all five kinds, modelled as one count per
kind. -/
structure DevCardCounts where
  yearOfPlenty : Nat
  monopoly : Nat
  knight : Nat
  roadBuilding : Nat
  hiddenVictoryPoint : Nat
deriving DecidableEq

def DevCardCounts.get (c : DevCardCounts) : DevelopmentCard → Nat
  | .yearOfPlenty => c.yearOfPlenty
  | .monopoly => c.monopoly
  | .knight => c.knight
  | .roadBuilding => c.roadBuilding
  | .hiddenVictoryPoint => c.hiddenVictoryPoint

def DevCardCounts.set (c : DevCardCounts) (k : DevelopmentCard) (v : Nat) : DevCardCounts :=
  match k with
  | .yearOfPlenty => { c with yearOfPlenty := v }
  | .monopoly => { c with monopoly := v }
  | .knight => { c with knight := v }
  | .roadBuilding => { c with roadBuilding := v }
  | .hiddenVictoryPoint => { c with hiddenVictoryPoint := v }

/-- `TOTAL_RESOURCES` from bank.rs. -/
def TOTAL_RESOURCES : Nat := 19

/-- `Bank` from bank.rs.  The `trades` map is untouched by the resource and
development-card operations the claims concern, so it is not carried here. -/
structure Bank where
  developmentCards : DevCardCounts
  resources : Resources
deriving DecidableEq

/-- `Bank::new` — 19 of each resource; development cards
YearOfPlenty 2, RoadBuilding 2, Monopoly 2, HiddenVictoryPoint 5, Knight 14. -/
def Bank.new : Bank :=
  { developmentCards :=
      { yearOfPlenty := 2, monopoly := 2, knight := 14
        roadBuilding := 2, hiddenVictoryPoint := 5 }
    resources := Resources.newWithAmount TOTAL_RESOURCES }

/-- Outcome of `Bank::distribute_resource`.  On the two failure outcomes the
bank is unmutated (the source returns `Err` before any write, and a panic
aborts before the write completes), so only the success constructor carries
the post-state. -/
inductive DistributeResult
  | ok (pool : Resources) (bank : Bank)
  | insufficientSupply
  | panicked
deriving DecidableEq

/-- `Bank::distribute_resource` from bank.rs:
guard `(self.resources[kind] as i32) - (amount as i32) < 0` (with the
`as i32` truncation and checked `i32` subtraction of the source), then
mint a single-kind pool and decrement the bank's count (checked `usize`
subtraction). -/
def Bank.distributeResource (b : Bank) (kind : ResourceKind) (amount : Nat) :
    DistributeResult :=
  match i32Sub (usizeToI32 (b.resources.get kind)) (usizeToI32 amount) with
  | none => .panicked
  | some d =>
    if d < 0 then .insufficientSupply
    else
      match usizeSub (b.resources.get kind) amount with
      | none => .panicked
      | some v =>
        .ok ((Resources.new).set kind amount)
          { b with resources := b.resources.set kind v }

/-- `Bank::return_resources` from bank.rs: `self.resources += resources`
(the element-wise `AddAssign`). -/
def Bank.returnResources (b : Bank) (r : Resources) : Bank :=
  { b with resources := b.resources.addAssign r }

/-- The retry loop of `Bank::distribute_random_development_card`:
attempt `i` samples `rng i`; a kind with positive count is decremented and
returned; after `fuel` failed attempts the loop breaks with an error.
The source runs it with `fuel = 5` (`variant_count::<DevelopmentCard>()`). -/
def drawAttempts (rng : Nat → DevelopmentCard) (cards : DevCardCounts) :
    Nat → Nat → Option (DevelopmentCard × DevCardCounts)
  | _, 0 => none
  | i, fuel + 1 =>
    let kind := rng i
    if 0 < cards.get kind then
      some (kind, cards.set kind (cards.get kind - 1))
    else
      drawAttempts rng cards (i + 1) fuel

/-- Outcome of `Bank::distribute_random_development_card`. -/
inductive DrawResult
  | ok (card : DevelopmentCard) (bank : Bank)
  | exhausted
deriving DecidableEq

/-- `Bank::distribute_random_development_card` from bank.rs, with the
random source made explicit. -/
def Bank.distributeRandomDevelopmentCard (rng : Nat → DevelopmentCard)
    (b : Bank) : DrawResult :=
  match drawAttempts rng b.developmentCards 0 5 with
  | some (k, cards) => .ok k { b with developmentCards := cards }
  | none => .exhausted

/-- `PlayerColour` from player.rs (`u8` channels modelled as `Nat`; the
channel range plays no role in the trade logic). -/
inductive PlayerColour
  | red
  | green
  | blue
  | purple
  | custom (r g b : Nat)
deriving DecidableEq

deriving instance DecidableEq for Except

/-- `TradeState` from trade.rs. -/
inductive TradeState
  | proposed
  | lockedIn
  | accepted
deriving DecidableEq

/-- The failure cases of the trade operations.  The source reports them as
`anyhow` messages; the spec groups the state-machine violations as
`InvalidState` and the missing-partner case as `NoPartner`. -/
inductive TradeError
  | invalidState
  | noPartner
deriving DecidableEq

/-- `Trade` from trade.rs (`from` and `to` renamed `fromPlayer` / `toPlayer`;
`from` is a Lean keyword). -/
structure Trade where
  fromPlayer : PlayerColour
  acceptedBy : List PlayerColour
  toPlayer : Option PlayerColour
  offering : Resources
  wants : Resources
  state : TradeState
deriving DecidableEq

/-- `Trade::new` from trade.rs. -/
def Trade.new (f : PlayerColour) (offering wants : Resources) : Trade :=
  { fromPlayer := f, toPlayer := none, acceptedBy := []
    offering := offering, wants := wants, state := TradeState.proposed }

/-- `Trade::accept` from trade.rs. -/
def Trade.accept (t : Trade) (p : PlayerColour) : Except TradeError Trade :=
  match t.state with
  | .proposed => .ok { t with acceptedBy := t.acceptedBy ++ [p] }
  | .lockedIn => .error .invalidState
  | .accepted => .error .invalidState

/-- `Trade::confirm_recipient` from trade.rs. -/
def Trade.confirmRecipient (t : Trade) (p : PlayerColour) : Except TradeError Trade :=
  match t.state with
  | .proposed => .ok { t with toPlayer := some p, state := TradeState.lockedIn }
  | .lockedIn => .error .invalidState
  | .accepted => .error .invalidState

/-- `Trade::complete` from trade.rs: `Proposed` and `Accepted` error out,
the remaining state (`LockedIn`) moves to `Accepted`. -/
def Trade.complete (t : Trade) : Except TradeError Trade :=
  match t.state with
  | .proposed => .error .invalidState
  | .accepted => .error .invalidState
  | .lockedIn => .ok { t with state := TradeState.accepted }

/-- Outcome of `Trade::get_trade_partner`; `panicked` models the
`self.to.unwrap()` panic on a missing counter-party. -/
inductive PartnerResult
  | ok (p : PlayerColour)
  | noPartner
  | panicked
deriving DecidableEq

/-- `Trade::get_trade_partner` from trade.rs. -/
def Trade.getTradePartner (t : Trade) : PartnerResult :=
  match t.state with
  | .proposed => .noPartner
  | _ =>
    match t.toPlayer with
    | some p => .ok p
    | none => .panicked

/-- A call against a `Trade` (the three mutating operations). -/
inductive TradeOp
  | acceptOp (p : PlayerColour)
  | confirmOp (p : PlayerColour)
  | completeOp
deriving DecidableEq

/-- Apply one call: a failed call (`Err`) leaves the trade unchanged, as the
source's `&mut self` methods do. -/
def Trade.applyOp (t : Trade) : TradeOp → Trade
  | .acceptOp p =>
    match t.accept p with
    | .ok t2 => t2
    | .error _ => t
  | .confirmOp p =>
    match t.confirmRecipient p with
    | .ok t2 => t2
    | .error _ => t
  | .completeOp =>
    match t.complete with
    | .ok t2 => t2
    | .error _ => t

/-- Run a sequence of calls from a starting trade. -/
def Trade.runOps (t : Trade) (ops : List TradeOp) : Trade :=
  ops.foldl Trade.applyOp t

/-- A bank whose development-card stock is exhausted except for Knight;
used to exercise the random draw. -/
def lopsidedBank : Bank :=
  { developmentCards :=
      { yearOfPlenty := 0, monopoly := 0, knight := 14
        roadBuilding := 0, hiddenVictoryPoint := 0 }
    resources := Resources.newWithAmount TOTAL_RESOURCES }

/-! ## Helper lemmas -/

theorem usizeSub_eq_some {a b c : Nat} (h : usizeSub a b = some c) :
    b ≤ a ∧ c = a - b := by
  unfold usizeSub at h
  split at h
  · exact ⟨by assumption, (Option.some.injEq _ _ ▸ h).symm⟩
  · exact absurd h (by simp)

theorem usizeSub_of_le (a b : Nat) (h : b ≤ a) : usizeSub a b = some (a - b) := by
  unfold usizeSub
  rw [if_pos h]

theorem usizeToI32_of_lt (n : Nat) (h : n < 2 ^ 31) : usizeToI32 n = (n : Int) := by
  unfold usizeToI32
  rw [Nat.mod_eq_of_lt (by omega)]
  rw [if_pos h]

theorem i32Sub_of_small (a b : Nat) (ha : a < 2 ^ 31) (hb : b < 2 ^ 31) :
    i32Sub (a : Int) (b : Int) = some ((a : Int) - (b : Int)) := by
  unfold i32Sub
  split
  · rfl
  · rename_i hcond
    exact absurd (by constructor <;> omega) hcond

theorem Resources.get_set_self (r : Resources) (k : ResourceKind) (v : Nat) :
    (r.set k v).get k = v := by
  cases k <;> rfl

theorem Resources.get_set_other (r : Resources) (k j : ResourceKind) (v : Nat)
    (h : j ≠ k) : (r.set k v).get j = r.get j := by
  cases k <;> cases j <;> first | rfl | exact absurd rfl h

theorem addAssign_set_cancel (r : Resources) (k : ResourceKind) (a : Nat)
    (h : a ≤ r.get k) :
    Resources.addAssign (r.set k (r.get k - a)) ((Resources.new).set k a) = r := by
  obtain ⟨o, g, l, br, w⟩ := r
  cases k <;>
    simp_all [Resources.addAssign, Resources.set, Resources.get, Resources.new]

/-! ## Claims about the resource bundle arithmetic -/

/-- C1: the claim that `Add`/`Sub` on `Resources` are element-wise per kind
fails on the code: with `a` holding a single unit of lumber and `b` empty,
`(a + b)[Lumber]` is `0` (the source derives the `lumber` field from the
`ore` fields), not `a[Lumber] + b[Lumber] = 1`; likewise `a - b` (with every
field of `a` at least the corresponding field of `b`) yields a bundle whose
lumber count is `0` instead of `1`. -/
theorem c1_lumber_field_not_elementwise :
    (Resources.add (Resources.newExplicit 0 0 0 0 1) Resources.new).get
        ResourceKind.lumber = 0 ∧
    (Resources.newExplicit 0 0 0 0 1).get ResourceKind.lumber +
        (Resources.new).get ResourceKind.lumber = 1 ∧
    Resources.sub (Resources.newExplicit 0 0 0 0 1) Resources.new =
        some Resources.new := by
  decide

/-- C2: the claim that subtraction fails whenever some kind is short fails on
the code: with `a` empty and `b` holding five lumber, `b[Lumber] > a[Lumber]`,
yet `a - b` (the `Sub` operator) succeeds and returns the empty bundle —
the lumber field is computed from the ore fields, so the lumber underflow is
never detected.  (`SubAssign`, shown alongside, does hit the underflow.) -/
theorem c2_sub_misses_lumber_underflow :
    (Resources.newExplicit 0 0 0 0 5).get ResourceKind.lumber >
        (Resources.new).get ResourceKind.lumber ∧
    Resources.sub Resources.new (Resources.newExplicit 0 0 0 0 5) =
        some Resources.new ∧
    Resources.subAssign Resources.new (Resources.newExplicit 0 0 0 0 5) = none := by
  decide

/-! ## Claims about `Bank::distribute_resource` -/

/-- C3 counterexample: with a fresh bank (19 ore) and `amount = 2 ^ 32`,
the amount strictly exceeds the bank's ore count, yet `distribute_resource`
does not fail with `InsufficientSupply`: the guard computes
`19 - (2 ^ 32 as i32) = 19 - 0 ≥ 0`, and the subsequent `usize` subtraction
panics. -/
theorem c3_large_amount_panics :
    2 ^ 32 > (Bank.new).resources.get ResourceKind.ore ∧
    Bank.distributeResource Bank.new ResourceKind.ore (2 ^ 32) =
        DistributeResult.panicked ∧
    Bank.distributeResource Bank.new ResourceKind.ore (2 ^ 32) ≠
        DistributeResult.insufficientSupply := by
  decide

/-- C3 (amended): whenever the bank's count for the kind and the requested
amount are both below `2 ^ 31` (so the `as i32` casts are value-preserving)
and the amount strictly exceeds the count, `distribute_resource` fails with
`InsufficientSupply`; the bank is unmutated on this failure (the source
returns before any write). -/
theorem c3_insufficient_supply (b : Bank) (kind : ResourceKind) (amount : Nat)
    (hcount : b.resources.get kind < 2 ^ 31) (hamount : amount < 2 ^ 31)
    (hgt : b.resources.get kind < amount) :
    Bank.distributeResource b kind amount = DistributeResult.insufficientSupply := by
  unfold Bank.distributeResource
  rw [usizeToI32_of_lt _ hcount, usizeToI32_of_lt _ hamount,
    i32Sub_of_small _ _ hcount hamount]
  simp only [Option.some.injEq]
  rw [if_pos (by omega)]

/-- C3 witness: a fresh bank holds 19 ore, and requesting 20 fails with
`InsufficientSupply`. -/
theorem c3_insufficient_supply_witness :
    (Bank.new).resources.get ResourceKind.ore < 2 ^ 31 ∧ 20 < 2 ^ 31 ∧
    (Bank.new).resources.get ResourceKind.ore < 20 ∧
    Bank.distributeResource Bank.new ResourceKind.ore 20 =
        DistributeResult.insufficientSupply :=
  ⟨by decide, by decide, by decide,
    c3_insufficient_supply Bank.new ResourceKind.ore 20 (by decide) (by decide)
      (by decide)⟩

/-- C4 counterexample: on a bank holding `2 ^ 31` ore, requesting `0 ≤ 2 ^ 31`
ore does not succeed: the guard casts the count to `i32`, giving `-2 ^ 31`,
and reports `InsufficientSupply` although the supply is ample. -/
theorem c4_large_count_spurious_failure :
    (0 : Nat) ≤ ({ Bank.new with
        resources := (Resources.new).set ResourceKind.ore (2 ^ 31) } :
          Bank).resources.get ResourceKind.ore ∧
    Bank.distributeResource
        { Bank.new with resources := (Resources.new).set ResourceKind.ore (2 ^ 31) }
        ResourceKind.ore 0 = DistributeResult.insufficientSupply := by
  decide

/-- C4 (amended): whenever the bank's count for the kind is below `2 ^ 31`
(so the `as i32` casts are value-preserving) and `amount ≤ count`,
`distribute_resource` succeeds: it returns the pool that is zero everywhere
except `amount` at the kind, and the bank keeps every other kind's count
while the requested kind drops by exactly `amount`. -/
theorem c4_distribute_success (b : Bank) (kind : ResourceKind) (amount : Nat)
    (hcount : b.resources.get kind < 2 ^ 31) (hle : amount ≤ b.resources.get kind) :
    Bank.distributeResource b kind amount =
      DistributeResult.ok ((Resources.new).set kind amount)
        { b with resources := b.resources.set kind (b.resources.get kind - amount) } ∧
    ((Resources.new).set kind amount).get kind = amount ∧
    (b.resources.set kind (b.resources.get kind - amount)).get kind =
      b.resources.get kind - amount ∧
    ∀ j, j ≠ kind →
      ((Resources.new).set kind amount).get j = 0 ∧
      (b.resources.set kind (b.resources.get kind - amount)).get j =
        b.resources.get j := by
  have hamount : amount < 2 ^ 31 := lt_of_le_of_lt hle hcount
  refine ⟨?_, Resources.get_set_self _ _ _, Resources.get_set_self _ _ _,
    fun j hj => ⟨?_, Resources.get_set_other _ _ _ _ hj⟩⟩
  · unfold Bank.distributeResource
    rw [usizeToI32_of_lt _ hcount, usizeToI32_of_lt _ hamount,
      i32Sub_of_small _ _ hcount hamount]
    simp only [Option.some.injEq]
    rw [if_neg (by omega), usizeSub_of_le _ _ hle]
  · rw [Resources.get_set_other _ _ _ _ hj]
    cases j <;> rfl

/-- C4 witness: on a fresh bank, requesting 5 ore yields the single-kind
pool of 5 ore, drops the bank's ore to 14, and leaves grain untouched. -/
theorem c4_distribute_success_witness :
    (Bank.new).resources.get ResourceKind.ore < 2 ^ 31 ∧
    5 ≤ (Bank.new).resources.get ResourceKind.ore ∧
    Bank.distributeResource Bank.new ResourceKind.ore 5 =
      DistributeResult.ok ((Resources.new).set ResourceKind.ore 5)
        { Bank.new with resources := (Bank.new).resources.set ResourceKind.ore ((Bank.new).resources.get ResourceKind.ore - 5) } ∧
    ((Bank.new).resources.set ResourceKind.ore
        ((Bank.new).resources.get ResourceKind.ore - 5)).get ResourceKind.grain =
      (Bank.new).resources.get ResourceKind.grain :=
  ⟨by decide, by decide,
    (c4_distribute_success Bank.new ResourceKind.ore 5 (by decide) (by decide)).1,
    ((c4_distribute_success Bank.new ResourceKind.ore 5 (by decide)
        (by decide)).2.2.2 ResourceKind.grain (by decide)).2⟩

/-- C8: round-trip conservation.  Whenever `distribute_resource` succeeds,
returning the minted pool with `return_resources` (which adds element-wise
via `AddAssign`) restores the bank — in particular its resource pool — to
exactly its value before the distribution. -/
theorem c8_round_trip (b : Bank) (kind : ResourceKind) (amount : Nat)
    (pool : Resources) (b2 : Bank)
    (h : Bank.distributeResource b kind amount = DistributeResult.ok pool b2) :
    Bank.returnResources b2 pool = b := by
  unfold Bank.distributeResource at h
  split at h
  · exact absurd h (by simp)
  · split at h
    · exact absurd h (by simp)
    · split at h
      · exact absurd h (by simp)
      · rename_i v hsub
        obtain ⟨hle, hv⟩ := usizeSub_eq_some hsub
        rw [DistributeResult.ok.injEq] at h
        obtain ⟨hpool, hb2⟩ := h
        subst hpool
        subst hb2
        subst hv
        obtain ⟨dev, res⟩ := b
        simp only [Bank.returnResources]
        rw [Bank.mk.injEq]
        exact ⟨rfl, addAssign_set_cancel res kind amount hle⟩

/-- C8 witness: distributing 5 ore from a fresh bank and returning the minted
pool restores the fresh bank. -/
theorem c8_round_trip_witness :
    Bank.distributeResource Bank.new ResourceKind.ore 5 =
      DistributeResult.ok ((Resources.new).set ResourceKind.ore 5)
        { Bank.new with resources := (Bank.new).resources.set ResourceKind.ore 14 } ∧
    Bank.returnResources
        { Bank.new with resources := (Bank.new).resources.set ResourceKind.ore 14 }
        ((Resources.new).set ResourceKind.ore 5) = Bank.new :=
  ⟨by decide, c8_round_trip Bank.new ResourceKind.ore 5 _ _ (by decide)⟩

/-! ## Claims about `Bank::distribute_random_development_card` -/

theorem drawAttempts_eq_none (rng : Nat → DevelopmentCard) (cards : DevCardCounts) :
    ∀ fuel i, (∀ t, t < fuel → cards.get (rng (i + t)) = 0) →
      drawAttempts rng cards i fuel = none := by
  intro fuel
  induction fuel with
  | zero => intro i _; rfl
  | succ n ih =>
    intro i h
    have h0 : cards.get (rng i) = 0 := by simpa using h 0 (Nat.succ_pos n)
    unfold drawAttempts
    rw [if_neg (by omega)]
    refine ih (i + 1) fun t ht => ?_
    have := h (t + 1) (by omega)
    rwa [show i + (t + 1) = i + 1 + t by omega] at this

theorem drawAttempts_first_hit (rng : Nat → DevelopmentCard) (cards : DevCardCounts) :
    ∀ fuel i t, t < fuel → 0 < cards.get (rng (i + t)) →
      (∀ u, u < t → cards.get (rng (i + u)) = 0) →
      drawAttempts rng cards i fuel =
        some (rng (i + t), cards.set (rng (i + t)) (cards.get (rng (i + t)) - 1)) := by
  intro fuel
  induction fuel with
  | zero => intro i t ht; omega
  | succ n ih =>
    intro i t ht hpos hzero
    unfold drawAttempts
    cases t with
    | zero =>
      rw [if_pos (by simpa using hpos)]
      simp
    | succ m =>
      have h0 : cards.get (rng i) = 0 := by simpa using hzero 0 (Nat.succ_pos m)
      rw [if_neg (by omega)]
      rw [show i + (m + 1) = i + 1 + m by omega] at hpos ⊢
      refine ih (i + 1) m (by omega) hpos fun u hu => ?_
      have := hzero (u + 1) (by omega)
      rwa [show i + (u + 1) = i + 1 + u by omega] at this

/-- C5 counterexample: on a bank still holding 14 Knight cards (all other
kinds exhausted), a random source that keeps sampling YearOfPlenty makes the
draw fail with `Exhausted` after its 5 attempts, although development cards
remain — refuting the claim that the draw succeeds for every behaviour of the
random source whenever some kind has a positive count. -/
theorem c5_exhausted_despite_stock :
    0 < (lopsidedBank).developmentCards.get DevelopmentCard.knight ∧
    Bank.distributeRandomDevelopmentCard (fun _ => DevelopmentCard.yearOfPlenty)
        lopsidedBank = DrawResult.exhausted := by
  decide

/-- C5 (amended): the draw makes at most 5 attempts, one per output of the
random source.  It fails with `Exhausted` precisely when each of the first
five sampled kinds has a zero remaining count — which can happen even when
other kinds still have cards; if instead some attempt `j < 5` is the first
to sample a kind with a positive count, the draw succeeds there, decrements
that kind's count by one, and returns that kind. -/
theorem c5_draw_characterization (rng : Nat → DevelopmentCard) (b : Bank) :
    ((∀ i, i < 5 → b.developmentCards.get (rng i) = 0) →
      Bank.distributeRandomDevelopmentCard rng b = DrawResult.exhausted) ∧
    (∀ j, j < 5 → 0 < b.developmentCards.get (rng j) →
      (∀ i, i < j → b.developmentCards.get (rng i) = 0) →
      Bank.distributeRandomDevelopmentCard rng b =
        DrawResult.ok (rng j)
          { b with developmentCards := b.developmentCards.set (rng j) (b.developmentCards.get (rng j) - 1) }) := by
  constructor
  · intro h
    unfold Bank.distributeRandomDevelopmentCard
    rw [drawAttempts_eq_none rng b.developmentCards 5 0 fun t ht => by
      simpa using h t ht]
  · intro j hj hpos hzero
    unfold Bank.distributeRandomDevelopmentCard
    rw [drawAttempts_first_hit rng b.developmentCards 5 0 j hj (by simpa using hpos)
      fun u hu => by simpa using hzero u hu]
    simp

/-- C5 witness: on a fresh bank, a random source that samples Knight first
succeeds immediately, decrementing Knight from 14 to 13. -/
theorem c5_draw_witness :
    0 < (Bank.new).developmentCards.get DevelopmentCard.knight ∧
    Bank.distributeRandomDevelopmentCard (fun _ => DevelopmentCard.knight) Bank.new =
      DrawResult.ok DevelopmentCard.knight
        { Bank.new with developmentCards := (Bank.new).developmentCards.set DevelopmentCard.knight ((Bank.new).developmentCards.get DevelopmentCard.knight - 1) } :=
  ⟨by decide,
    (c5_draw_characterization (fun _ => DevelopmentCard.knight) Bank.new).2 0
      (by decide) (by decide) (fun u hu => absurd hu (Nat.not_lt_zero u))⟩

/-! ## Claims about the Trade state machine -/

/-- C6: the Trade negotiation state machine.  A fresh trade is `Proposed`
with an empty acceptance log and no counter-party; `accept` in `Proposed`
appends the party (duplicates permitted, the log only grows) and leaves the
state `Proposed`; `confirm_recipient` in `Proposed` records the counter-party
and moves to `LockedIn`; both calls fail with `InvalidState` whenever the
state is `LockedIn` or `Accepted`. -/
theorem c6_trade_state_machine (f : PlayerColour) (o w : Resources)
    (t : Trade) (p : PlayerColour) :
    ((Trade.new f o w).state = TradeState.proposed ∧
      (Trade.new f o w).acceptedBy = [] ∧ (Trade.new f o w).toPlayer = none) ∧
    (t.state = TradeState.proposed →
      t.accept p = Except.ok { t with acceptedBy := t.acceptedBy ++ [p] } ∧
      ({ t with acceptedBy := t.acceptedBy ++ [p] } : Trade).state = TradeState.proposed ∧
      t.confirmRecipient p = Except.ok { t with toPlayer := some p, state := TradeState.lockedIn }) ∧
    ((t.state = TradeState.lockedIn ∨ t.state = TradeState.accepted) →
      t.accept p = Except.error TradeError.invalidState ∧
      t.confirmRecipient p = Except.error TradeError.invalidState) := by
  obtain ⟨tf, ta, tt, tof, tw, ts⟩ := t
  refine ⟨⟨rfl, rfl, rfl⟩, ?_, ?_⟩ <;> cases ts <;>
    simp [Trade.accept, Trade.confirmRecipient]

/-- C6 witness: on a freshly proposed trade, `accept` succeeds and appends the
accepting player; on the same trade once `LockedIn`, `accept` fails with
`InvalidState`. -/
theorem c6_trade_state_machine_witness :
    (Trade.new PlayerColour.red Resources.new Resources.new).accept PlayerColour.blue =
      Except.ok { Trade.new PlayerColour.red Resources.new Resources.new with acceptedBy := (Trade.new PlayerColour.red Resources.new Resources.new).acceptedBy ++ [PlayerColour.blue] } ∧
    ({ Trade.new PlayerColour.red Resources.new Resources.new with state := TradeState.lockedIn } : Trade).accept PlayerColour.blue =
      Except.error TradeError.invalidState :=
  ⟨((c6_trade_state_machine PlayerColour.red Resources.new Resources.new
      (Trade.new PlayerColour.red Resources.new Resources.new) PlayerColour.blue).2.1
      rfl).1,
    ((c6_trade_state_machine PlayerColour.red Resources.new Resources.new
      { Trade.new PlayerColour.red Resources.new Resources.new with state := TradeState.lockedIn }
      PlayerColour.blue).2.2 (Or.inl rfl)).1⟩

/-- C7: `Accepted` is terminal and settlement is legal only when `LockedIn`:
`complete` succeeds exactly in `LockedIn` (moving to `Accepted`), fails with
`InvalidState` in `Proposed` or `Accepted`, and once `Accepted` every one of
`accept`, `confirm_recipient`, `complete` fails and leaves the trade — in
particular its state — unchanged. -/
theorem c7_accepted_terminal (t : Trade) (p : PlayerColour) :
    (t.state = TradeState.lockedIn →
      t.complete = Except.ok { t with state := TradeState.accepted }) ∧
    ((t.state = TradeState.proposed ∨ t.state = TradeState.accepted) →
      t.complete = Except.error TradeError.invalidState) ∧
    (t.state = TradeState.accepted →
      t.accept p = Except.error TradeError.invalidState ∧
      t.confirmRecipient p = Except.error TradeError.invalidState ∧
      t.complete = Except.error TradeError.invalidState ∧
      ∀ op : TradeOp, t.applyOp op = t) := by
  obtain ⟨tf, ta, tt, tof, tw, ts⟩ := t
  cases ts with
  | proposed =>
    exact ⟨fun h => by simp at h, fun _ => rfl, fun h => by simp at h⟩
  | lockedIn =>
    refine ⟨fun _ => rfl, fun h => ?_, fun h => by simp at h⟩
    rcases h with h | h <;> simp at h
  | accepted =>
    exact ⟨fun h => by simp at h, fun _ => rfl,
      fun _ => ⟨rfl, rfl, rfl, fun op => by cases op <;> rfl⟩⟩

/-- C7 witness: a locked-in trade completes into the `Accepted` state, and a
completed (accepted) trade refuses a further `complete`. -/
theorem c7_accepted_terminal_witness :
    ({ Trade.new PlayerColour.red Resources.new Resources.new with state := TradeState.lockedIn } : Trade).complete =
      Except.ok { Trade.new PlayerColour.red Resources.new Resources.new with state := TradeState.accepted } ∧
    ({ Trade.new PlayerColour.red Resources.new Resources.new with state := TradeState.accepted } : Trade).complete =
      Except.error TradeError.invalidState :=
  ⟨(c7_accepted_terminal
      { Trade.new PlayerColour.red Resources.new Resources.new with state := TradeState.lockedIn }
      PlayerColour.blue).1 rfl,
    (c7_accepted_terminal
      { Trade.new PlayerColour.red Resources.new Resources.new with state := TradeState.accepted }
      PlayerColour.blue).2.1 (Or.inr rfl)⟩

theorem applyOp_partner_inv (t : Trade) (op : TradeOp)
    (h : t.state = TradeState.proposed ∨ t.toPlayer.isSome) :
    (t.applyOp op).state = TradeState.proposed ∨ (t.applyOp op).toPlayer.isSome := by
  obtain ⟨tf, ta, tt, tof, tw, ts⟩ := t
  cases op <;> cases ts <;>
    simp_all [Trade.applyOp, Trade.accept, Trade.confirmRecipient, Trade.complete]

theorem runOps_partner_inv (ops : List TradeOp) : ∀ t : Trade,
    (t.state = TradeState.proposed ∨ t.toPlayer.isSome) →
    ((Trade.runOps t ops).state = TradeState.proposed ∨
      (Trade.runOps t ops).toPlayer.isSome) := by
  induction ops with
  | nil => exact fun _ h => h
  | cons op rest ih =>
    intro t h
    exact ih (t.applyOp op) (applyOp_partner_inv t op h)

theorem getTradePartner_of_inv (t : Trade)
    (h : t.state = TradeState.proposed ∨ t.toPlayer.isSome) :
    t.getTradePartner ≠ PartnerResult.panicked := by
  obtain ⟨tf, ta, tt, tof, tw, ts⟩ := t
  cases ts <;> cases tt <;> simp_all [Trade.getTradePartner]

/-- C10: for every trade reachable from `Trade::new` by any sequence of
`accept`, `confirm_recipient` and `complete` calls, a `LockedIn` or
`Accepted` state implies the counter-party is recorded (`Some`); hence
`get_trade_partner` never reaches its internal `unwrap` panic — it reports
`NoPartner` in `Proposed` and otherwise returns the recorded party. -/
theorem c10_partner_invariant (f : PlayerColour) (o w : Resources)
    (ops : List TradeOp) :
    (((Trade.runOps (Trade.new f o w) ops).state = TradeState.lockedIn ∨
        (Trade.runOps (Trade.new f o w) ops).state = TradeState.accepted) →
      ((Trade.runOps (Trade.new f o w) ops).toPlayer).isSome) ∧
    (Trade.runOps (Trade.new f o w) ops).getTradePartner ≠ PartnerResult.panicked := by
  have hinv := runOps_partner_inv ops (Trade.new f o w) (Or.inl rfl)
  refine ⟨fun hst => ?_, getTradePartner_of_inv _ hinv⟩
  rcases hinv with h | h
  · rw [h] at hst
    rcases hst with hst | hst <;> simp at hst
  · exact h

/-- C10 witness: after confirming a recipient on a fresh trade, the
counter-party is recorded and `get_trade_partner` does not panic. -/
theorem c10_partner_invariant_witness :
    ((Trade.runOps (Trade.new PlayerColour.red Resources.new Resources.new)
        [TradeOp.confirmOp PlayerColour.blue]).toPlayer).isSome ∧
    (Trade.runOps (Trade.new PlayerColour.red Resources.new Resources.new)
        [TradeOp.confirmOp PlayerColour.blue]).getTradePartner ≠
      PartnerResult.panicked :=
  ⟨(c10_partner_invariant PlayerColour.red Resources.new Resources.new
      [TradeOp.confirmOp PlayerColour.blue]).1 (Or.inl rfl),
    (c10_partner_invariant PlayerColour.red Resources.new Resources.new
      [TradeOp.confirmOp PlayerColour.blue]).2⟩

/-! ## Claims about string-to-ResourceKind conversion -/

/-- C9 counterexample: `"foo"` names none of the five resource kinds, and
converting it hits the source's `panic!("Unrecognized resource")` arm
(modelled by `none`) — there is no recoverable error value, refuting the
claim that the conversion fails recoverably on malformed input. -/
theorem c9_unrecognized_string_panics :
    asciiLower "foo" ∉ (["ore", "grain", "wool", "brick", "lumber"] : List String) ∧
    ResourceKind.fromString "foo" = none := by
  decide

/-- C9 (amended): converting a string to a `ResourceKind` panics — rather
than returning a recoverable error — whenever the lowercased string names
none of the five kinds; strings naming a kind (case-insensitively) convert
to that kind. -/
theorem c9_from_string_total (s : String) :
    (asciiLower s = "ore" → ResourceKind.fromString s = some ResourceKind.ore) ∧
    (asciiLower s = "grain" → ResourceKind.fromString s = some ResourceKind.grain) ∧
    (asciiLower s = "wool" → ResourceKind.fromString s = some ResourceKind.wool) ∧
    (asciiLower s = "brick" → ResourceKind.fromString s = some ResourceKind.brick) ∧
    (asciiLower s = "lumber" → ResourceKind.fromString s = some ResourceKind.lumber) ∧
    (asciiLower s ∉ (["ore", "grain", "wool", "brick", "lumber"] : List String) →
      ResourceKind.fromString s = none) := by
  refine ⟨fun h => ?_, fun h => ?_, fun h => ?_, fun h => ?_, fun h => ?_, fun h => ?_⟩
  · simp [ResourceKind.fromString, h]
  · simp [ResourceKind.fromString, h]
  · simp [ResourceKind.fromString, h]
  · simp [ResourceKind.fromString, h]
  · simp [ResourceKind.fromString, h]
  · simp only [List.mem_cons, List.not_mem_nil, or_false, not_or] at h
    obtain ⟨h1, h2, h3, h4, h5⟩ := h
    simp [ResourceKind.fromString, h1, h2, h3, h4, h5]

/-- C9 witness: `"Ore"` lowercases to `"ore"` and converts to the ore kind. -/
theorem c9_from_string_witness :
    asciiLower "Ore" = "ore" ∧
    ResourceKind.fromString "Ore" = some ResourceKind.ore :=
  ⟨by decide, (c9_from_string_total "Ore").1 (by decide)⟩
